import Mathlib

/-!
Verification of the SCD Type-2 incremental merge engine of the Snowflake ETL
repository (files `Prices_incremental_ETL.py` and `Products_incremental_etl.py`).

The embedding models the two SQL statements executed by
`load_prices_incremental` / `load_products_incremental`:

1. the `MERGE` statement, which for each current target row matched by a staged
   row whose change predicate holds sets `valid_to = CURRENT_TIMESTAMP()` and
   `is_current = FALSE`, and for each staged row with no matching current
   target row inserts a fresh row with `valid_from = CURRENT_TIMESTAMP()`;
2. the follow-up `INSERT ... SELECT ... JOIN` statement, which inserts one new
   current row per join pair of a staged row with a target row of the same key
   whose `valid_to` equals the per-statement `CURRENT_TIMESTAMP()` of that statement.

Snowflake evaluates `CURRENT_TIMESTAMP()` once per statement, so the two
statements see two timestamps; the embedding keeps them as two parameters
`tMerge` and `tInsert`.  Each `session.sql(...).collect()` call runs in its own
autocommitted transaction, so the state after the `MERGE` statement is durable
and observable; the embedding exposes it via `mergeStep`.

Timestamps are modelled as `Nat`.  The column `price FLOAT` is only ever
compared with `!=` by the code (never used arithmetically), so it is modelled
as an exact scaled integer (`Int`); this is faithful for the ordinary numeric
inputs the claims are about.

Snowflake by default raises a nondeterministic-merge error when a target row
is selected for update by more than one source row; `mergeNondet` models that
condition and the run wrappers fail when it holds.
-/

namespace SnowflakeETL

/-- A staged row: natural key, payload columns, and `updated_on`. -/
structure StgRow (κ π : Type) where
  key : κ
  payload : π
  updated_on : Nat
deriving DecidableEq, Repr

/-- A row of the historised target table: key, payload, `updated_on`, and the
SCD bookkeeping columns `valid_from`, `valid_to`, `is_current`,
`ingestion_timestamp` (shortened to `ingest`). -/
structure TgtRow (κ π : Type) where
  key : κ
  payload : π
  updated_on : Nat
  valid_from : Nat
  valid_to : Option Nat
  is_current : Bool
  ingest : Nat
deriving DecidableEq, Repr

variable {κ π : Type} [DecidableEq κ] [DecidableEq π]

/-- The `ON` clause of both MERGE statements: key columns equal and
`tgt.is_current = TRUE`. -/
def matchesCur (s : StgRow κ π) (t : TgtRow κ π) : Bool :=
  decide (t.key = s.key) && t.is_current

/-- A target row is closed by the merge when some staged row matches it and the
per-entity change predicate holds: the `WHEN MATCHED AND (...)` condition. -/
def closedCond (changed : StgRow κ π → TgtRow κ π → Bool)
    (stg : List (StgRow κ π)) (t : TgtRow κ π) : Bool :=
  stg.any (fun s => matchesCur s t && changed s t)

/-- The `UPDATE SET valid_to = CURRENT_TIMESTAMP(), is_current = FALSE` action. -/
def closeRow (T : Nat) (t : TgtRow κ π) : TgtRow κ π :=
  { t with valid_to := some T, is_current := false }

/-- A freshly inserted version: staged columns plus `valid_from = T`,
`valid_to = NULL`, the given `is_current` flag and default ingestion time. -/
def newVersion (s : StgRow κ π) (T : Nat) (cur : Bool) : TgtRow κ π :=
  { key := s.key, payload := s.payload, updated_on := s.updated_on,
    valid_from := T, valid_to := none, is_current := cur, ingest := T }

/-- `WHEN NOT MATCHED` holds for a staged row when no current target row joins
with it. -/
def unmatchedRow (tgt : List (TgtRow κ π)) (s : StgRow κ π) : Bool :=
  !(tgt.any (fun s' => matchesCur s s'))

/-- The MERGE statement at statement timestamp `T`: every matched-and-changed
current target row is closed, every not-matched staged row is inserted with
`valid_from = T` and the per-entity `is_current` expression (`TRUE` for prices,
the `CASE` on the per-key maximum `updated_on` for products). -/
def mergeStep (changed : StgRow κ π → TgtRow κ π → Bool)
    (curFlag : StgRow κ π → Bool) (T : Nat)
    (stg : List (StgRow κ π)) (tgt : List (TgtRow κ π)) : List (TgtRow κ π) :=
  tgt.map (fun t => if closedCond changed stg t then closeRow T t else t)
    ++ (stg.filter (fun s => unmatchedRow tgt s)).map
        (fun s => newVersion s T (curFlag s))

/-- The default Snowflake nondeterministic-merge check: some target row is
selected for update by at least two source rows. -/
def mergeNondet (changed : StgRow κ π → TgtRow κ π → Bool)
    (stg : List (StgRow κ π)) (tgt : List (TgtRow κ π)) : Bool :=
  tgt.any (fun t => 2 ≤ (stg.filter (fun s => matchesCur s t && changed s t)).length)

/-- The second statement (`INSERT ... SELECT ... FROM stg src JOIN target tgt
ON key columns AND tgt.valid_to = CURRENT_TIMESTAMP()`) at its own statement
timestamp `T`: one new current row per join pair, appended to the table. -/
def insertStep (T : Nat) (stg : List (StgRow κ π))
    (tbl : List (TgtRow κ π)) : List (TgtRow κ π) :=
  tbl ++ stg.flatMap (fun s =>
    ((tbl.filter (fun t => decide (t.key = s.key) && decide (t.valid_to = some T))).map
      (fun _ => newVersion s T true)))

/-- Both statements in sequence (merge at `tM`, insert at `tI`). -/
def scdPipeline (changed : StgRow κ π → TgtRow κ π → Bool)
    (curFlag : List (StgRow κ π) → StgRow κ π → Bool) (tM tI : Nat)
    (stg : List (StgRow κ π)) (tgt : List (TgtRow κ π)) : List (TgtRow κ π) :=
  insertStep tI stg (mergeStep changed (curFlag stg) tM stg tgt)

/-- A completed merge run over the target table: fails on the nondeterministic
merge condition, otherwise applies both statements. -/
def runTables (changed : StgRow κ π → TgtRow κ π → Bool)
    (curFlag : List (StgRow κ π) → StgRow κ π → Bool) (tM tI : Nat)
    (stg : List (StgRow κ π)) (tgt : List (TgtRow κ π)) :
    Except String (List (TgtRow κ π)) :=
  if mergeNondet changed stg tgt then Except.error "MergeError"
  else Except.ok (scdPipeline changed curFlag tM tI stg tgt)

/-- Does a row count as a current version of key `k`. -/
def keyCur (k : κ) (t : TgtRow κ π) : Bool :=
  decide (t.key = k) && t.is_current

/-- Number of current versions of key `k` in a table. -/
def countCur (tbl : List (TgtRow κ π)) (k : κ) : Nat :=
  tbl.countP (keyCur k)

/-- Invariant I1: at most one current version per key. -/
def i1Holds (tbl : List (TgtRow κ π)) : Prop :=
  ∀ k : κ, countCur tbl k ≤ 1

/-- Invariant I2: `valid_to` is null iff the row is current. -/
@[reducible] def i2Holds (tbl : List (TgtRow κ π)) : Prop :=
  ∀ t ∈ tbl, (t.valid_to = none ↔ t.is_current = true)

/-- No row of the table already carries `valid_to = some T`: in a real run the
statement timestamps strictly exceed every timestamp stored by earlier runs. -/
@[reducible] def freshTo (tbl : List (TgtRow κ π)) (T : Nat) : Prop :=
  ∀ t ∈ tbl, t.valid_to ≠ some T

/-- Each natural key occurs at most once in the staging batch. -/
@[reducible] def keysDistinct (stg : List (StgRow κ π)) : Prop :=
  stg.Pairwise (fun a b => a.key ≠ b.key)

/-- The SQL subquery `SELECT MAX(updated_on) FROM staging WHERE key = k`. -/
def maxUpdatedOn (stg : List (StgRow κ π)) (k : κ) : Nat :=
  ((stg.filter (fun s => decide (s.key = k))).map (fun s => s.updated_on)).foldr max 0

end SnowflakeETL

namespace SnowflakeETL

/-! ### The price entity (`Prices_incremental_ETL.py`) -/

/-- Natural key of a price row: (manufacturer, sku, distributor). -/
abbrev PriceKey := String × String × String

/-- Payload of a price row; `price FLOAT` is modelled as an exact scaled
integer, since the code only compares it with `!=`. -/
structure PricePayload where
  price : Int
  quantity : Int
deriving DecidableEq, Repr

/-- The prices change predicate:
`tgt.price != src.price OR tgt.quantity != src.quantity`. -/
def changedPrices (s : StgRow PriceKey PricePayload)
    (t : TgtRow PriceKey PricePayload) : Bool :=
  decide (t.payload.price ≠ s.payload.price)
    || decide (t.payload.quantity ≠ s.payload.quantity)

/-- The prices `WHEN NOT MATCHED` insert always sets `is_current = TRUE`. -/
def pricesCurFlag : List (StgRow PriceKey PricePayload) →
    StgRow PriceKey PricePayload → Bool :=
  fun _ _ => true

/-- The prices MERGE statement alone, at statement timestamp `T`. -/
def mergePrices (T : Nat) (stg : List (StgRow PriceKey PricePayload))
    (tgt : List (TgtRow PriceKey PricePayload)) : List (TgtRow PriceKey PricePayload) :=
  mergeStep changedPrices (pricesCurFlag stg) T stg tgt

/-- Both prices statements in sequence. -/
def pricesPipeline (tM tI : Nat) (stg : List (StgRow PriceKey PricePayload))
    (tgt : List (TgtRow PriceKey PricePayload)) : List (TgtRow PriceKey PricePayload) :=
  scdPipeline changedPrices pricesCurFlag tM tI stg tgt

/-- A completed prices merge run. -/
def runPricesTables (tM tI : Nat) (stg : List (StgRow PriceKey PricePayload))
    (tgt : List (TgtRow PriceKey PricePayload)) :
    Except String (List (TgtRow PriceKey PricePayload)) :=
  runTables changedPrices pricesCurFlag tM tI stg tgt

/-! ### The product entity (`Products_incremental_etl.py`) -/

/-- Natural key of a product row: (manufacturer, sku). -/
abbrev ProductKey := String × String

/-- Payload of a product row. -/
structure ProductPayload where
  category : String
  title : String
  details : String
deriving DecidableEq, Repr

/-- The products change predicate: `tgt.updated_on < src.updated_on OR
tgt.details != src.details OR tgt.category != src.category OR
tgt.title != src.title`. -/
def changedProducts (s : StgRow ProductKey ProductPayload)
    (t : TgtRow ProductKey ProductPayload) : Bool :=
  decide (t.updated_on < s.updated_on)
    || decide (t.payload.details ≠ s.payload.details)
    || decide (t.payload.category ≠ s.payload.category)
    || decide (t.payload.title ≠ s.payload.title)

/-- The products `WHEN NOT MATCHED` insert sets `is_current` by the `CASE`:
true iff the `updated_on` of the row equals the per-key maximum over the staging
batch. -/
def productsCurFlag (stg : List (StgRow ProductKey ProductPayload))
    (s : StgRow ProductKey ProductPayload) : Bool :=
  decide (s.updated_on = maxUpdatedOn stg s.key)

/-- The products MERGE statement alone, at statement timestamp `T`. -/
def mergeProducts (T : Nat) (stg : List (StgRow ProductKey ProductPayload))
    (tgt : List (TgtRow ProductKey ProductPayload)) :
    List (TgtRow ProductKey ProductPayload) :=
  mergeStep changedProducts (productsCurFlag stg) T stg tgt

/-- Both products statements in sequence. -/
def productsPipeline (tM tI : Nat) (stg : List (StgRow ProductKey ProductPayload))
    (tgt : List (TgtRow ProductKey ProductPayload)) :
    List (TgtRow ProductKey ProductPayload) :=
  scdPipeline changedProducts productsCurFlag tM tI stg tgt

/-- A completed products merge run. -/
def runProductsTables (tM tI : Nat) (stg : List (StgRow ProductKey ProductPayload))
    (tgt : List (TgtRow ProductKey ProductPayload)) :
    Except String (List (TgtRow ProductKey ProductPayload)) :=
  runTables changedProducts productsCurFlag tM tI stg tgt

/-! ### The load run control flow and the audit logger

`load_prices_incremental` / `load_products_incremental` wrap the two SQL
statements in `try/except`: on success they call `log_audit` with
status SUCCESS and the row count; on any exception they call `log_audit` with
status ERROR, `records_processed = 0` and the captured message, then re-raise.
An empty batch skips staging, merge and `log_audit` entirely (only a warning
is logged).  `log_audit` itself swallows every failure of the audit write.

Backend failures are modelled by a `Fault` injection parameter naming the
statement that fails, plus a separate flag for a failing audit write. -/

/-- One row of `etl_audit_log` as written by `log_audit` (the fields the
code populates). -/
structure AuditEntry where
  table_name : String
  operation : String
  records_processed : Nat
  start_time : Nat
  end_time : Nat
  status : String
  error_message : Option String
deriving DecidableEq, Repr

/-- Which backend statement of the run fails, if any. -/
inductive Fault
  | ok
  | atStaging
  | atMerge
  | atInsert
deriving DecidableEq, Repr

/-- The durable state touched by a load run: the staging table, the target
table and the audit log. -/
structure EtlState (κ π : Type) where
  staging : List (StgRow κ π)
  target : List (TgtRow κ π)
  auditLog : List AuditEntry

/-- Everything observable about one load run: final durable state, the
invocations of `log_audit`, and the outcome seen by the caller. -/
structure LoadResult (κ π : Type) where
  staging : List (StgRow κ π)
  target : List (TgtRow κ π)
  auditLog : List AuditEntry
  auditCalls : List AuditEntry
  outcome : Except String Unit

/-- `log_audit`: appends the entry unless the audit write itself fails, in
which case the failure is caught inside the function and the log is left
unchanged; in either case the function returns normally. -/
def logAudit (auditWriteFails : Bool) (e : AuditEntry)
    (log : List AuditEntry) : List AuditEntry :=
  if auditWriteFails then log else log ++ [e]

/-- The SUCCESS audit entry written at the end of a successful run. -/
def successEntry (tbl : String) (n tS tE : Nat) : AuditEntry :=
  { table_name := tbl, operation := "MERGE", records_processed := n,
    start_time := tS, end_time := tE, status := "SUCCESS", error_message := none }

/-- The ERROR audit entry written by the `except` branch. -/
def errorEntry (tbl : String) (tS tE : Nat) (msg : String) : AuditEntry :=
  { table_name := tbl, operation := "MERGE", records_processed := 0,
    start_time := tS, end_time := tE, status := "ERROR", error_message := some msg }

variable {κ π : Type} [DecidableEq κ] [DecidableEq π]

/-- One invocation of `load_*_incremental`: the `if` guard on the batch size,
the staging overwrite, the two SQL statements, and the `try/except` audit
logic, with injected backend faults. -/
def loadRun (changed : StgRow κ π → TgtRow κ π → Bool)
    (curFlag : List (StgRow κ π) → StgRow κ π → Bool) (tbl : String)
    (fault : Fault) (auditWriteFails : Bool) (tS tM tI tE : Nat)
    (batch : List (StgRow κ π)) (st : EtlState κ π) : LoadResult κ π :=
  if batch.isEmpty then
    { staging := st.staging, target := st.target, auditLog := st.auditLog,
      auditCalls := [], outcome := Except.ok () }
  else if fault = Fault.atStaging then
    let e := errorEntry tbl tS tE "StagingWriteError"
    { staging := st.staging, target := st.target,
      auditLog := logAudit auditWriteFails e st.auditLog,
      auditCalls := [e], outcome := Except.error "StagingWriteError" }
  else if decide (fault = Fault.atMerge) || mergeNondet changed batch st.target then
    let e := errorEntry tbl tS tE "MergeError"
    { staging := batch, target := st.target,
      auditLog := logAudit auditWriteFails e st.auditLog,
      auditCalls := [e], outcome := Except.error "MergeError" }
  else
    let m := mergeStep changed (curFlag batch) tM batch st.target
    if fault = Fault.atInsert then
      let e := errorEntry tbl tS tE "InsertError"
      { staging := batch, target := m,
        auditLog := logAudit auditWriteFails e st.auditLog,
        auditCalls := [e], outcome := Except.error "InsertError" }
    else
      let e := successEntry tbl batch.length tS tE
      { staging := batch, target := insertStep tI batch m,
        auditLog := logAudit auditWriteFails e st.auditLog,
        auditCalls := [e], outcome := Except.ok () }

end SnowflakeETL

namespace SnowflakeETL

/-- `load_prices_incremental` with its table name. -/
def loadPrices (fault : Fault) (auditWriteFails : Bool) (tS tM tI tE : Nat)
    (batch : List (StgRow PriceKey PricePayload))
    (st : EtlState PriceKey PricePayload) : LoadResult PriceKey PricePayload :=
  loadRun changedPrices pricesCurFlag "prices" fault auditWriteFails tS tM tI tE batch st

/-- `load_products_incremental` with its table name. -/
def loadProducts (fault : Fault) (auditWriteFails : Bool) (tS tM tI tE : Nat)
    (batch : List (StgRow ProductKey ProductPayload))
    (st : EtlState ProductKey ProductPayload) : LoadResult ProductKey ProductPayload :=
  loadRun changedProducts productsCurFlag "products_v2" fault auditWriteFails tS tM tI tE batch st

/-! ### Concrete data for counterexamples and failing inputs -/

/-- C1 data: one current price row. -/
def c1Tgt : List (TgtRow PriceKey PricePayload) :=
  [{ key := ("M1", "K1", "D1"), payload := { price := 100, quantity := 1 },
     updated_on := 0, valid_from := 0, valid_to := none, is_current := true, ingest := 0 }]

/-- C1 data: a staged row changing the price of that key. -/
def c1Stg : List (StgRow PriceKey PricePayload) :=
  [{ key := ("M1", "K1", "D1"), payload := { price := 200, quantity := 1 }, updated_on := 9 }]

/-- C2 data: one current price row. -/
def c2Tgt : List (TgtRow PriceKey PricePayload) :=
  [{ key := ("M2", "K2", "D2"), payload := { price := 7, quantity := 7 },
     updated_on := 0, valid_from := 0, valid_to := none, is_current := true, ingest := 0 }]

/-- C2 data: a staged row changing the price of that key. -/
def c2Stg : List (StgRow PriceKey PricePayload) :=
  [{ key := ("M2", "K2", "D2"), payload := { price := 8, quantity := 7 }, updated_on := 9 }]

/-- C3 data: a staging batch with two rows for one new key. -/
def c3Stg : List (StgRow PriceKey PricePayload) :=
  [{ key := ("M3", "K3", "D3"), payload := { price := 10, quantity := 1 }, updated_on := 0 },
   { key := ("M3", "K3", "D3"), payload := { price := 20, quantity := 1 }, updated_on := 0 }]

/-- C4 data: a products staging batch with two rows for one new key and
distinct `updated_on` values. -/
def c4Stg : List (StgRow ProductKey ProductPayload) :=
  [{ key := ("M4", "K4"), payload := { category := "c", title := "t", details := "d1" },
     updated_on := 1 },
   { key := ("M4", "K4"), payload := { category := "c", title := "t", details := "d2" },
     updated_on := 2 }]

/-- C5 data: the spec scenario key (Acme, X1, D1). -/
def c5Key : PriceKey := ("Acme", "X1", "D1")

/-- C5 data: run-1 batch, price 9.99 (scaled to 999), quantity 5. -/
def c5Stg1 : List (StgRow PriceKey PricePayload) :=
  [{ key := c5Key, payload := { price := 999, quantity := 5 }, updated_on := 10 }]

/-- C5 data: run-2 batch, price changed to 12.99 (scaled to 1299). -/
def c5Stg2 : List (StgRow PriceKey PricePayload) :=
  [{ key := c5Key, payload := { price := 1299, quantity := 5 }, updated_on := 20 }]

/-- C5 data: the target after run 1 (statement timestamps 1 and 2). -/
def c5AfterRun1 : List (TgtRow PriceKey PricePayload) :=
  pricesPipeline 1 2 c5Stg1 []

/-- C5 data: the target after run 2 (statement timestamps 3 and 4). -/
def c5AfterRun2 : List (TgtRow PriceKey PricePayload) :=
  pricesPipeline 3 4 c5Stg2 c5AfterRun1

/-- C7 data: an initial state with everything empty. -/
def emptyState : EtlState PriceKey PricePayload :=
  { staging := [], target := [], auditLog := [] }

/-- C3 witness data: a distinct-key prices batch. -/
def w3Stg : List (StgRow PriceKey PricePayload) :=
  [{ key := ("W3", "S", "D"), payload := { price := 5, quantity := 5 }, updated_on := 0 }]

/-- C3 witness data: a distinct-key products batch. -/
def w3PStg : List (StgRow ProductKey ProductPayload) :=
  [{ key := ("W3", "S"), payload := { category := "c", title := "t", details := "d" },
     updated_on := 0 }]

/-- C4 witness data: a distinct-key prices batch. -/
def w4Stg : List (StgRow PriceKey PricePayload) :=
  [{ key := ("W4", "S", "D"), payload := { price := 4, quantity := 4 }, updated_on := 0 }]

/-- C4 witness data: a distinct-key products batch. -/
def w4PStg : List (StgRow ProductKey ProductPayload) :=
  [{ key := ("W4", "S"), payload := { category := "c", title := "t", details := "d" },
     updated_on := 0 }]

/-- C6 witness data: a prices batch identical to the current target version. -/
def w6Stg : List (StgRow PriceKey PricePayload) :=
  [{ key := ("W6", "S", "D"), payload := { price := 10, quantity := 2 }, updated_on := 5 }]

/-- C6 witness data: the prices target already holding that version. -/
def w6Tgt : List (TgtRow PriceKey PricePayload) :=
  [{ key := ("W6", "S", "D"), payload := { price := 10, quantity := 2 },
     updated_on := 5, valid_from := 1, valid_to := none, is_current := true, ingest := 1 }]

/-- C6 witness data: a products batch identical to the current target version. -/
def w6PStg : List (StgRow ProductKey ProductPayload) :=
  [{ key := ("W6", "S"), payload := { category := "c", title := "t", details := "d" },
     updated_on := 5 }]

/-- C6 witness data: the products target already holding that version. -/
def w6PTgt : List (TgtRow ProductKey ProductPayload) :=
  [{ key := ("W6", "S"), payload := { category := "c", title := "t", details := "d" },
     updated_on := 5, valid_from := 1, valid_to := none, is_current := true, ingest := 1 }]

/-- C8 witness data: a one-row prices batch. -/
def w8Batch : List (StgRow PriceKey PricePayload) :=
  [{ key := ("W8", "S", "D"), payload := { price := 1, quantity := 1 }, updated_on := 0 }]

/-- C8 witness data: an empty initial prices state. -/
def w8State : EtlState PriceKey PricePayload :=
  { staging := [], target := [], auditLog := [] }

/-- C8 witness data: a one-row products batch. -/
def w8PBatch : List (StgRow ProductKey ProductPayload) :=
  [{ key := ("W8", "S"), payload := { category := "c", title := "t", details := "d" },
     updated_on := 0 }]

/-- C8 witness data: an empty initial products state. -/
def w8PState : EtlState ProductKey ProductPayload :=
  { staging := [], target := [], auditLog := [] }

/-- C10 witness data: a products batch with two rows for one key and distinct
`updated_on` values. -/
def w10Stg : List (StgRow ProductKey ProductPayload) :=
  [{ key := ("MX", "KX"), payload := { category := "c", title := "t", details := "a" },
     updated_on := 1 },
   { key := ("MX", "KX"), payload := { category := "c", title := "t", details := "b" },
     updated_on := 2 }]

end SnowflakeETL

namespace SnowflakeETL

/-! ### Auxiliary counting lemmas -/

variable {α β : Type}

theorem countP_and_split (p q : α → Bool) (l : List α) :
    l.countP (fun a => p a && q a) + l.countP (fun a => p a && !q a) = l.countP p := by
  induction l with
  | nil => rfl
  | cons a l ih =>
    simp only [List.countP_cons]
    cases hp : p a <;> cases hq : q a <;> simp [hp, hq] <;> omega

theorem countP_zero_of (p : α → Bool) (l : List α) (h : ∀ a ∈ l, p a = false) :
    l.countP p = 0 :=
  List.countP_eq_zero.mpr (by simpa using h)

variable {κ π : Type} [DecidableEq κ] [DecidableEq π]

theorem keysDistinct_countP_le_one (stg : List (StgRow κ π)) (hd : keysDistinct stg)
    (k : κ) : stg.countP (fun s => decide (s.key = k)) ≤ 1 := by
  induction stg with
  | nil => simp
  | cons s l ih =>
    obtain ⟨hhead, htail⟩ := List.pairwise_cons.mp hd
    rw [List.countP_cons]
    by_cases hk : s.key = k
    · have hz : l.countP (fun x => decide (x.key = k)) = 0 := by
        refine countP_zero_of _ _ (fun a ha => ?_)
        simp only [decide_eq_false_iff_not]
        intro hak
        exact hhead a ha (hk.trans hak.symm)
      simp [hk, hz]
    · simpa [hk] using ih htail

theorem keysDistinct_filter_eq_single (stg : List (StgRow κ π)) (hd : keysDistinct stg)
    (s : StgRow κ π) (hs : s ∈ stg) :
    stg.filter (fun x => decide (x.key = s.key)) = [s] := by
  induction stg with
  | nil => cases hs
  | cons a l ih =>
    obtain ⟨hhead, htail⟩ := List.pairwise_cons.mp hd
    rcases List.mem_cons.mp hs with rfl | hmem
    · have hz : l.filter (fun x => decide (x.key = s.key)) = [] := by
        refine List.filter_eq_nil_iff.mpr (fun x hx => ?_)
        simp only [decide_eq_true_iff]
        exact fun hxk => hhead x hx hxk.symm
      simp [List.filter_cons, hz]
    · have hne : a.key ≠ s.key := hhead s hmem
      have hfa : decide (a.key = s.key) = false := by simp [hne]
      rw [List.filter_cons, hfa]
      simpa using ih htail hmem

/-! ### Structural lemmas about the merge and insert statements -/

theorem closedCond_current (changed : StgRow κ π → TgtRow κ π → Bool)
    (stg : List (StgRow κ π)) (t : TgtRow κ π)
    (h : closedCond changed stg t = true) : t.is_current = true := by
  obtain ⟨s, _, hps⟩ := List.any_eq_true.mp h
  have hm : matchesCur s t = true := ((Bool.and_eq_true _ _).mp hps).1
  exact ((Bool.and_eq_true _ _).mp hm).2

theorem closedCond_false_of_not_current (changed : StgRow κ π → TgtRow κ π → Bool)
    (stg : List (StgRow κ π)) (t : TgtRow κ π)
    (h : t.is_current = false) : closedCond changed stg t = false := by
  cases hc : closedCond changed stg t
  · rfl
  · exact absurd (closedCond_current changed stg t hc) (by simp [h])

theorem unmatchedRow_false_of_current (tgt : List (TgtRow κ π)) (s : StgRow κ π)
    (t0 : TgtRow κ π) (h0 : t0 ∈ tgt) (hk : t0.key = s.key) (hc : t0.is_current = true) :
    unmatchedRow tgt s = false := by
  have : tgt.any (fun x => matchesCur s x) = true :=
    List.any_eq_true.mpr ⟨t0, h0, by simp [matchesCur, hk, hc]⟩
  simp [unmatchedRow, this]

theorem unmatchedRow_true_of_no_current (tgt : List (TgtRow κ π)) (s : StgRow κ π)
    (h : ∀ t ∈ tgt, t.key = s.key → t.is_current = false) :
    unmatchedRow tgt s = true := by
  have : tgt.any (fun x => matchesCur s x) = false := by
    refine List.any_eq_false.mpr (fun t ht => ?_)
    by_cases hk : t.key = s.key
    · simp [matchesCur, hk, h t ht hk]
    · simp [matchesCur, hk]
  simp [unmatchedRow, this]

theorem countCur_mergeStep (changed : StgRow κ π → TgtRow κ π → Bool)
    (curFlag : StgRow κ π → Bool) (T : Nat)
    (stg : List (StgRow κ π)) (tgt : List (TgtRow κ π)) (k : κ) :
    countCur (mergeStep changed curFlag T stg tgt) k
      = tgt.countP (fun t => keyCur k t && !(closedCond changed stg t))
        + stg.countP (fun s => (decide (s.key = k) && curFlag s) && unmatchedRow tgt s) := by
  unfold countCur mergeStep
  rw [List.countP_append, List.countP_map, List.countP_map, List.countP_filter]
  have h1 : (keyCur (π := π) k ∘ fun t => if closedCond changed stg t = true then closeRow T t else t)
      = fun t => keyCur k t && !(closedCond changed stg t) := by
    funext t
    by_cases hc : closedCond changed stg t = true <;>
      simp [Function.comp, keyCur, closeRow, hc]
  have h2 : (fun s => (keyCur (π := π) k ∘ fun s => newVersion s T (curFlag s)) s && unmatchedRow tgt s)
      = fun s => (decide (s.key = k) && curFlag s) && unmatchedRow tgt s := by
    funext s
    simp [Function.comp, keyCur, newVersion]
  rw [h1, h2]

theorem countVT_mergeStep_le (changed : StgRow κ π → TgtRow κ π → Bool)
    (curFlag : StgRow κ π → Bool) (T tI : Nat)
    (stg : List (StgRow κ π)) (tgt : List (TgtRow κ π)) (k : κ)
    (hf : freshTo tgt tI) :
    (mergeStep changed curFlag T stg tgt).countP
        (fun t => decide (t.key = k) && decide (t.valid_to = some tI))
      ≤ tgt.countP (fun t => keyCur k t && closedCond changed stg t) := by
  unfold mergeStep
  rw [List.countP_append, List.countP_map, List.countP_map, List.countP_filter]
  have hnew : stg.countP (fun s =>
      ((fun t => decide (t.key = k) && decide (t.valid_to = some tI)) ∘
        (fun s => newVersion s T (curFlag s))) s && unmatchedRow tgt s) = 0 := by
    refine countP_zero_of _ _ (fun s _ => ?_)
    simp [Function.comp, newVersion]
  rw [hnew, Nat.add_zero]
  refine List.countP_mono_left (fun t ht hp => ?_)
  simp only [Function.comp] at hp
  split at hp
  next hc =>
    have hk : t.key = k := by
      simpa [closeRow] using ((Bool.and_eq_true _ _).mp hp).1
    have hcur : t.is_current = true := closedCond_current changed stg t hc
    simp [keyCur, hk, hcur, hc]
  next hc =>
    have hvt : t.valid_to = some tI := by
      simpa using ((Bool.and_eq_true _ _).mp hp).2
    exact absurd hvt (hf t ht)

theorem countCur_insertStep (tI : Nat) (stg : List (StgRow κ π))
    (tbl : List (TgtRow κ π)) (k : κ) :
    countCur (insertStep tI stg tbl) k
      = countCur tbl k + stg.countP (fun s => decide (s.key = k)) *
          tbl.countP (fun t => decide (t.key = k) && decide (t.valid_to = some tI)) := by
  unfold countCur insertStep
  rw [List.countP_append]
  congr 1
  induction stg with
  | nil => simp
  | cons s l ih =>
    rw [List.flatMap_cons, List.countP_append, ih, List.countP_cons, List.countP_map]
    by_cases hk : s.key = k
    · have hconst : ((keyCur k) ∘ (fun _ : TgtRow κ π => newVersion s tI true))
          = fun _ => true := by
        funext x; simp [Function.comp, keyCur, newVersion, hk]
      rw [hconst, List.countP_true, ← List.countP_eq_length_filter]
      simp only [hk, decide_True, if_true]
      ring
    · have hconst : ((keyCur k) ∘ (fun _ : TgtRow κ π => newVersion s tI true))
          = fun _ => false := by
        funext x; simp [Function.comp, keyCur, newVersion, hk]
      rw [hconst, List.countP_false]
      simp [hk]


/-! ### Preservation of invariant I1 -/

theorem i1_preserved_generic (changed : StgRow κ π → TgtRow κ π → Bool)
    (curFlag : StgRow κ π → Bool) (tM tI : Nat)
    (stg : List (StgRow κ π)) (tgt : List (TgtRow κ π))
    (hd : keysDistinct stg) (h1 : i1Holds tgt) (hf : freshTo tgt tI) :
    i1Holds (insertStep tI stg (mergeStep changed curFlag tM stg tgt)) := by
  intro k
  have hins := countCur_insertStep tI stg (mergeStep changed curFlag tM stg tgt) k
  have hmer := countCur_mergeStep changed curFlag tM stg tgt k
  have hvt := countVT_mergeStep_le changed curFlag tM tI stg tgt k hf
  have hsk := keysDistinct_countP_le_one stg hd k
  have hsplit := countP_and_split (keyCur k) (closedCond changed stg) tgt
  have h1k : tgt.countP (keyCur k) ≤ 1 := h1 k
  rw [hins, hmer]
  by_cases hex : ∃ t ∈ tgt, keyCur k t = true
  · obtain ⟨t0, ht0, hk0⟩ := hex
    have hB : stg.countP (fun s => (decide (s.key = k) && curFlag s) && unmatchedRow tgt s) = 0 := by
      refine countP_zero_of _ _ (fun s hs => ?_)
      by_cases hks : s.key = k
      · have hu : unmatchedRow tgt s = false := by
          refine unmatchedRow_false_of_current tgt s t0 ht0 ?_ ?_
          · have : t0.key = k := by simpa [keyCur] using ((Bool.and_eq_true _ _).mp hk0).1
            rw [this, hks]
          · simpa [keyCur] using ((Bool.and_eq_true _ _).mp hk0).2
        simp [hu]
      · simp [hks]
    have hmul : stg.countP (fun s => decide (s.key = k)) *
        (mergeStep changed curFlag tM stg tgt).countP
          (fun t => decide (t.key = k) && decide (t.valid_to = some tI))
        ≤ tgt.countP (fun t => keyCur k t && closedCond changed stg t) := by
      calc stg.countP (fun s => decide (s.key = k)) *
            (mergeStep changed curFlag tM stg tgt).countP
              (fun t => decide (t.key = k) && decide (t.valid_to = some tI))
          ≤ 1 * (mergeStep changed curFlag tM stg tgt).countP
              (fun t => decide (t.key = k) && decide (t.valid_to = some tI)) :=
            Nat.mul_le_mul_right _ hsk
        _ = (mergeStep changed curFlag tM stg tgt).countP
              (fun t => decide (t.key = k) && decide (t.valid_to = some tI)) := one_mul _
        _ ≤ tgt.countP (fun t => keyCur k t && closedCond changed stg t) := hvt
    omega
  · have hkf : ∀ t ∈ tgt, keyCur k t = false := by
      intro t ht
      cases hkc : keyCur k t
      · rfl
      · exact absurd ⟨t, ht, hkc⟩ hex
    have hA : tgt.countP (fun t => keyCur k t && !(closedCond changed stg t)) = 0 :=
      countP_zero_of _ _ (fun t ht => by simp [hkf t ht])
    have hC : tgt.countP (fun t => keyCur k t && closedCond changed stg t) = 0 :=
      countP_zero_of _ _ (fun t ht => by simp [hkf t ht])
    have hV : (mergeStep changed curFlag tM stg tgt).countP
        (fun t => decide (t.key = k) && decide (t.valid_to = some tI)) = 0 :=
      Nat.le_zero.mp (hC ▸ hvt)
    have hB : stg.countP (fun s => (decide (s.key = k) && curFlag s) && unmatchedRow tgt s)
        ≤ stg.countP (fun s => decide (s.key = k)) := by
      refine List.countP_mono_left (fun s _ hp => ?_)
      exact ((Bool.and_eq_true _ _).mp ((Bool.and_eq_true _ _).mp hp).1).1
    have hmul : stg.countP (fun s => decide (s.key = k)) *
        (mergeStep changed curFlag tM stg tgt).countP
          (fun t => decide (t.key = k) && decide (t.valid_to = some tI)) = 0 := by
      rw [hV, Nat.mul_zero]
    omega

/-! ### Preservation of invariant I2 -/

theorem i2_mergeStep_generic (changed : StgRow κ π → TgtRow κ π → Bool)
    (curFlag : StgRow κ π → Bool) (tM : Nat)
    (stg : List (StgRow κ π)) (tgt : List (TgtRow κ π))
    (hcur : ∀ s ∈ stg, curFlag s = true) (h2 : i2Holds tgt) :
    i2Holds (mergeStep changed curFlag tM stg tgt) := by
  intro t ht
  rcases List.mem_append.mp ht with hmap | hnew
  · obtain ⟨t0, ht0, heq⟩ := List.mem_map.mp hmap
    by_cases hc : closedCond changed stg t0 = true
    · rw [if_pos hc] at heq
      subst heq
      simp [closeRow]
    · rw [if_neg hc] at heq
      subst heq
      exact h2 t0 ht0
  · obtain ⟨s, hsf, heq⟩ := List.mem_map.mp hnew
    have hs : s ∈ stg := (List.mem_filter.mp hsf).1
    subst heq
    simp [newVersion, hcur s hs]

theorem i2_insertStep_generic (tI : Nat) (stg : List (StgRow κ π))
    (tbl : List (TgtRow κ π)) (h2 : i2Holds tbl) :
    i2Holds (insertStep tI stg tbl) := by
  intro t ht
  rcases List.mem_append.mp ht with hold | hins
  · exact h2 t hold
  · obtain ⟨s, _, hin⟩ := List.mem_flatMap.mp hins
    obtain ⟨t0, _, heq⟩ := List.mem_map.mp hin
    subst heq
    simp [newVersion]

/-! ### Idempotence of a re-run with an unchanged, already-merged batch -/

theorem idempotent_generic (changed : StgRow κ π → TgtRow κ π → Bool)
    (curFlag : List (StgRow κ π) → StgRow κ π → Bool) (tM tI : Nat)
    (stg : List (StgRow κ π)) (tgt : List (TgtRow κ π))
    (hm : ∀ s ∈ stg, ∃ t ∈ tgt, matchesCur s t = true)
    (hu : ∀ s ∈ stg, ∀ t ∈ tgt, matchesCur s t = true → changed s t = false)
    (hf : freshTo tgt tI) :
    runTables changed curFlag tM tI stg tgt = Except.ok tgt := by
  have hnd : mergeNondet changed stg tgt = false := by
    refine List.any_eq_false.mpr (fun t ht => ?_)
    have : stg.filter (fun s => matchesCur s t && changed s t) = [] := by
      refine List.filter_eq_nil_iff.mpr (fun s hs => ?_)
      cases hmc : matchesCur s t
      · simp [hmc]
      · simp [hmc, hu s hs t ht hmc]
    simp [this]
  have hmerge : mergeStep changed (curFlag stg) tM stg tgt = tgt := by
    unfold mergeStep
    have hnoclose : ∀ t ∈ tgt,
        (if closedCond changed stg t = true then closeRow tM t else t) = t := by
      intro t ht
      have hcc : closedCond changed stg t = false := by
        refine List.any_eq_false.mpr (fun s hs => ?_)
        cases hmc : matchesCur s t
        · simp [hmc]
        · simp [hmc, hu s hs t ht hmc]
      rw [hcc]
      simp
    have hnone : stg.filter (fun s => unmatchedRow tgt s) = [] := by
      refine List.filter_eq_nil_iff.mpr (fun s hs => ?_)
      obtain ⟨t0, ht0, hmc⟩ := hm s hs
      have : unmatchedRow tgt s = false := by
        have hany : tgt.any (fun x => matchesCur s x) = true :=
          List.any_eq_true.mpr ⟨t0, ht0, hmc⟩
        simp [unmatchedRow, hany]
      simp [this]
    rw [hnone, List.map_nil, List.append_nil]
    calc tgt.map (fun t => if closedCond changed stg t = true then closeRow tM t else t)
        = tgt.map id := List.map_congr_left (fun t ht => hnoclose t ht)
      _ = tgt := List.map_id tgt
  have hinsert : insertStep tI stg tgt = tgt := by
    unfold insertStep
    have hjoin : stg.flatMap (fun s =>
        (tgt.filter (fun t => decide (t.key = s.key) && decide (t.valid_to = some tI))).map
          (fun _ => newVersion s tI true)) = [] := by
      refine List.flatMap_eq_nil_iff.mpr (fun s _ => ?_)
      have hfil : tgt.filter
          (fun t => decide (t.key = s.key) && decide (t.valid_to = some tI)) = [] := by
        refine List.filter_eq_nil_iff.mpr (fun t ht => ?_)
        simp [hf t ht]
      rw [hfil, List.map_nil]
    rw [hjoin, List.append_nil]
  rw [runTables, hnd]
  simp only [Bool.false_eq_true, if_false]
  rw [scdPipeline, hmerge, hinsert]

/-! ### Characterisation of a run on keys with no current target row -/

theorem runTables_ok_eq (changed : StgRow κ π → TgtRow κ π → Bool)
    (curFlag : List (StgRow κ π) → StgRow κ π → Bool) (tM tI : Nat)
    (stg : List (StgRow κ π)) (tgt : List (TgtRow κ π)) (out : List (TgtRow κ π))
    (h : runTables changed curFlag tM tI stg tgt = Except.ok out) :
    out = scdPipeline changed curFlag tM tI stg tgt := by
  unfold runTables at h
  by_cases hnd : mergeNondet changed stg tgt = true
  · rw [if_pos hnd] at h
    cases h
  · rw [if_neg hnd] at h
    injection h with h
    exact h.symm

theorem mergeStep_filter_key_no_current (changed : StgRow κ π → TgtRow κ π → Bool)
    (curFlag : StgRow κ π → Bool) (T : Nat)
    (stg : List (StgRow κ π)) (tgt : List (TgtRow κ π)) (k : κ)
    (h1 : ∀ t ∈ tgt, t.key = k → t.is_current = false) :
    (mergeStep changed curFlag T stg tgt).filter (fun t => decide (t.key = k))
      = tgt.filter (fun t => decide (t.key = k))
        ++ (stg.filter (fun s => decide (s.key = k))).map
            (fun s => newVersion s T (curFlag s)) := by
  unfold mergeStep
  rw [List.filter_append, List.filter_map, List.filter_map]
  have hA : tgt.filter ((fun t => decide (t.key = k)) ∘
        (fun t => if closedCond changed stg t = true then closeRow T t else t))
      = tgt.filter (fun t => decide (t.key = k)) := by
    refine List.filter_congr (fun t _ => ?_)
    by_cases hc : closedCond changed stg t = true <;> simp [Function.comp, closeRow, hc]
  have hB : (stg.filter (fun s => unmatchedRow tgt s)).filter ((fun t => decide (t.key = k)) ∘
        (fun s => newVersion s T (curFlag s)))
      = stg.filter (fun s => decide (s.key = k)) := by
    have hcomp : (stg.filter (fun s => unmatchedRow tgt s)).filter ((fun t => decide (t.key = k)) ∘
          (fun s => newVersion s T (curFlag s)))
        = (stg.filter (fun s => unmatchedRow tgt s)).filter (fun s => decide (s.key = k)) := by
      refine List.filter_congr (fun s _ => ?_)
      simp [Function.comp, newVersion]
    rw [hcomp, List.filter_filter]
    refine List.filter_congr (fun s hs => ?_)
    by_cases hks : s.key = k
    · have hu : unmatchedRow tgt s = true := by
        refine unmatchedRow_true_of_no_current tgt s (fun t ht htk => ?_)
        exact h1 t ht (htk.trans hks)
      simp [hks, hu]
    · simp [hks]
  rw [hA, hB]
  have hmapid : (tgt.filter (fun t => decide (t.key = k))).map
      (fun t => if closedCond changed stg t = true then closeRow T t else t)
      = tgt.filter (fun t => decide (t.key = k)) := by
    have : ∀ t ∈ tgt.filter (fun t => decide (t.key = k)),
        (if closedCond changed stg t = true then closeRow T t else t) = id t := by
      intro t htf
      obtain ⟨ht, hp⟩ := List.mem_filter.mp htf
      have htk : t.key = k := by simpa using hp
      have hnc : t.is_current = false := h1 t ht htk
      rw [closedCond_false_of_not_current changed stg t hnc]
      simp
    rw [List.map_congr_left this, List.map_id]
  rw [hmapid]

theorem mergeStep_key_no_vt (changed : StgRow κ π → TgtRow κ π → Bool)
    (curFlag : StgRow κ π → Bool) (T tI : Nat)
    (stg : List (StgRow κ π)) (tgt : List (TgtRow κ π)) (k : κ)
    (h1 : ∀ t ∈ tgt, t.key = k → t.is_current = false)
    (h2 : ∀ t ∈ tgt, t.key = k → t.valid_to ≠ some tI) :
    ∀ t ∈ mergeStep changed curFlag T stg tgt, t.key = k → t.valid_to ≠ some tI := by
  intro t ht htk
  rcases List.mem_append.mp ht with hmap | hnew
  · obtain ⟨t0, ht0, heq⟩ := List.mem_map.mp hmap
    by_cases hc : closedCond changed stg t0 = true
    · exfalso
      rw [if_pos hc] at heq
      have hk0 : t0.key = k := by rw [← htk, ← heq]; rfl
      have := closedCond_current changed stg t0 hc
      rw [h1 t0 ht0 hk0] at this
      cases this
    · rw [if_neg hc] at heq
      subst heq
      exact h2 t0 ht0 htk
  · obtain ⟨s, _, heq⟩ := List.mem_map.mp hnew
    subst heq
    simp [newVersion]

theorem insertStep_filter_key_no_vt (tI : Nat) (stg : List (StgRow κ π))
    (tbl : List (TgtRow κ π)) (k : κ)
    (h : ∀ t ∈ tbl, t.key = k → t.valid_to ≠ some tI) :
    (insertStep tI stg tbl).filter (fun t => decide (t.key = k))
      = tbl.filter (fun t => decide (t.key = k)) := by
  unfold insertStep
  rw [List.filter_append]
  have hnil : (stg.flatMap (fun s =>
      (tbl.filter (fun t => decide (t.key = s.key) && decide (t.valid_to = some tI))).map
        (fun _ => newVersion s tI true))).filter (fun t => decide (t.key = k)) = [] := by
    refine List.filter_eq_nil_iff.mpr (fun x hx => ?_)
    obtain ⟨s, _, hx2⟩ := List.mem_flatMap.mp hx
    obtain ⟨t0, ht0f, heq⟩ := List.mem_map.mp hx2
    subst heq
    simp only [newVersion, decide_eq_true_iff]
    intro hsk
    obtain ⟨ht0, hp⟩ := List.mem_filter.mp ht0f
    have hk0 : t0.key = k := by
      have := ((Bool.and_eq_true _ _).mp hp).1
      simp only [decide_eq_true_iff] at this
      exact this.trans hsk
    have hvt : t0.valid_to = some tI := by
      have := ((Bool.and_eq_true _ _).mp hp).2
      simpa using this
    exact h t0 ht0 hk0 hvt
  rw [hnil, List.append_nil]

theorem productsCurFlag_true_of_distinct (stg : List (StgRow ProductKey ProductPayload))
    (hd : keysDistinct stg) (s : StgRow ProductKey ProductPayload) (hs : s ∈ stg) :
    productsCurFlag stg s = true := by
  unfold productsCurFlag maxUpdatedOn
  rw [keysDistinct_filter_eq_single stg hd s hs]
  simp

/-! ### Behaviour of the load run control flow -/

theorem loadRun_error_audit (changed : StgRow κ π → TgtRow κ π → Bool)
    (curFlag : List (StgRow κ π) → StgRow κ π → Bool) (tbl : String)
    (fault : Fault) (af : Bool) (tS tM tI tE : Nat)
    (batch : List (StgRow κ π)) (st : EtlState κ π) (msg : String)
    (h : (loadRun changed curFlag tbl fault af tS tM tI tE batch st).outcome
          = Except.error msg) :
    (loadRun changed curFlag tbl fault af tS tM tI tE batch st).auditCalls
      = [errorEntry tbl tS tE msg] := by
  unfold loadRun at h ⊢
  split_ifs at h ⊢ <;> simp_all

theorem loadRun_audit_fault_irrelevant (changed : StgRow κ π → TgtRow κ π → Bool)
    (curFlag : List (StgRow κ π) → StgRow κ π → Bool) (tbl : String)
    (fault : Fault) (tS tM tI tE : Nat)
    (batch : List (StgRow κ π)) (st : EtlState κ π) :
    (loadRun changed curFlag tbl fault true tS tM tI tE batch st).outcome
        = (loadRun changed curFlag tbl fault false tS tM tI tE batch st).outcome
      ∧ (loadRun changed curFlag tbl fault true tS tM tI tE batch st).target
        = (loadRun changed curFlag tbl fault false tS tM tI tE batch st).target
      ∧ (loadRun changed curFlag tbl fault true tS tM tI tE batch st).staging
        = (loadRun changed curFlag tbl fault false tS tM tI tE batch st).staging
      ∧ (loadRun changed curFlag tbl fault true tS tM tI tE batch st).auditCalls
        = (loadRun changed curFlag tbl fault false tS tM tI tE batch st).auditCalls := by
  unfold loadRun
  split_ifs <;> simp

/-! ### Claim theorems -/

/-- C1: the claim says the timestamp T written into `valid_to` of closed
versions equals the single run-wide timestamp written into `valid_from` of the
replacement versions, fixed once per run and not re-evaluated per statement.
The code evaluates `CURRENT_TIMESTAMP()` separately in the MERGE and the
INSERT statement.  On a run with merge timestamp 3 and insert timestamp 4 over
one CHANGED key, the closer writes `valid_to = 3` into one row while the
inserter (whose join looks for `valid_to = 4`) inserts nothing: no row with
`valid_from = 3` exists and the table ends with the single closed row. -/
theorem price_closer_timestamp_not_reused :
    mergeNondet changedPrices c1Stg c1Tgt = false ∧
    pricesPipeline 3 4 c1Stg c1Tgt
      = [{ key := ("M1", "K1", "D1"), payload := { price := 100, quantity := 1 },
           updated_on := 0, valid_from := 0, valid_to := some 3,
           is_current := false, ingest := 0 }] ∧
    (pricesPipeline 3 4 c1Stg c1Tgt).countP (fun t => decide (t.valid_to = some 3)) = 1 ∧
    (pricesPipeline 3 4 c1Stg c1Tgt).countP (fun t => decide (t.valid_from = 3)) = 0 := by
  decide

/-- C2: the claim says close and insert are applied as one atomic step with no
externally observable intermediate state in which a CHANGED key is closed but
its replacement is missing.  The code runs them as two separate autocommitted
statements: the state committed by the MERGE statement alone (here at
timestamp 5) has the changed key closed and zero current rows, before any
replacement insert runs. -/
theorem price_merge_intermediate_state_observable :
    countCur c2Tgt ("M2", "K2", "D2") = 1 ∧
    mergePrices 5 c2Stg c2Tgt
      = [{ key := ("M2", "K2", "D2"), payload := { price := 7, quantity := 7 },
           updated_on := 0, valid_from := 0, valid_to := some 5,
           is_current := false, ingest := 0 }] ∧
    countCur (mergePrices 5 c2Stg c2Tgt) ("M2", "K2", "D2") = 0 := by
  decide

/-- C3 counterexample: a staging batch with two rows for the same new key
makes the prices merge insert both rows with `is_current = true`, so the key
ends the run with two current versions, refuting I1 for duplicate-key
batches. -/
theorem i1_violated_by_duplicate_key_batch :
    mergeNondet changedPrices c3Stg [] = false ∧
    countCur (pricesPipeline 1 1 c3Stg []) ("M3", "K3", "D3") = 2 ∧
    ¬ i1Holds (pricesPipeline 1 1 c3Stg []) := by
  refine ⟨by decide, by decide, fun h => ?_⟩
  have h2 := h ("M3", "K3", "D3")
  have h3 : countCur (pricesPipeline 1 1 c3Stg []) ("M3", "K3", "D3") = 2 := by decide
  omega

/-- C3 (amended): for both entities, after every completed merge run whose
staging batch contains at most one row per natural key, against a target
satisfying I1 whose rows do not already carry the insert-statement timestamp
in `valid_to`, invariant I1 (at most one current version per key) holds on the
resulting target. -/
theorem i1_preserved_for_distinct_key_batches :
    (∀ (tM tI : Nat) (stg : List (StgRow PriceKey PricePayload))
        (tgt out : List (TgtRow PriceKey PricePayload)),
        keysDistinct stg → i1Holds tgt → freshTo tgt tI →
        runPricesTables tM tI stg tgt = Except.ok out → i1Holds out)
  ∧ (∀ (tM tI : Nat) (stg : List (StgRow ProductKey ProductPayload))
        (tgt out : List (TgtRow ProductKey ProductPayload)),
        keysDistinct stg → i1Holds tgt → freshTo tgt tI →
        runProductsTables tM tI stg tgt = Except.ok out → i1Holds out) := by
  constructor
  · intro tM tI stg tgt out hd h1 hf hrun
    obtain rfl := runTables_ok_eq changedPrices pricesCurFlag tM tI stg tgt out hrun
    exact i1_preserved_generic changedPrices (pricesCurFlag stg) tM tI stg tgt hd h1 hf
  · intro tM tI stg tgt out hd h1 hf hrun
    obtain rfl := runTables_ok_eq changedProducts productsCurFlag tM tI stg tgt out hrun
    exact i1_preserved_generic changedProducts (productsCurFlag stg) tM tI stg tgt hd h1 hf

/-- C3 witness: the amended theorem applied to a concrete distinct-key batch
for each entity, starting from an empty target. -/
theorem i1_preserved_for_distinct_key_batches_witness :
    i1Holds (pricesPipeline 2 2 w3Stg []) ∧ i1Holds (productsPipeline 2 2 w3PStg []) := by
  constructor
  · exact i1_preserved_for_distinct_key_batches.1 2 2 w3Stg [] (pricesPipeline 2 2 w3Stg [])
      (by decide) (fun k => by simp [countCur]) (fun t ht => absurd ht (List.not_mem_nil t)) rfl
  · exact i1_preserved_for_distinct_key_batches.2 2 2 w3PStg [] (productsPipeline 2 2 w3PStg [])
      (by decide) (fun k => by simp [countCur]) (fun t ht => absurd ht (List.not_mem_nil t)) rfl

/-- C4 counterexample: a products batch with two new rows for one key makes
the merge CASE insert the non-maximal row with `is_current = false` and
`valid_to` null, refuting the biconditional I2. -/
theorem i2_violated_by_product_duplicate_keys :
    mergeNondet changedProducts c4Stg [] = false ∧
    ¬ i2Holds (productsPipeline 5 6 c4Stg []) := by
  constructor
  · decide
  · decide

/-- C4 (amended): every operation of the run preserves invariant I2
(`valid_to` null iff `is_current`): unconditionally for the price entity, and
for the product entity provided each natural key occurs at most once in the
staging batch (with duplicate keys the product version insert violates I2). -/
theorem i2_preserved_for_distinct_key_batches :
    (∀ (tM tI : Nat) (stg : List (StgRow PriceKey PricePayload))
        (tgt : List (TgtRow PriceKey PricePayload)), i2Holds tgt →
        i2Holds (mergePrices tM stg tgt) ∧ i2Holds (pricesPipeline tM tI stg tgt))
  ∧ (∀ (tM tI : Nat) (stg : List (StgRow ProductKey ProductPayload))
        (tgt : List (TgtRow ProductKey ProductPayload)), keysDistinct stg → i2Holds tgt →
        i2Holds (mergeProducts tM stg tgt) ∧ i2Holds (productsPipeline tM tI stg tgt)) := by
  constructor
  · intro tM tI stg tgt h2
    have hm := i2_mergeStep_generic changedPrices (pricesCurFlag stg) tM stg tgt
      (fun s _ => rfl) h2
    exact ⟨hm, i2_insertStep_generic tI stg _ hm⟩
  · intro tM tI stg tgt hd h2
    have hm := i2_mergeStep_generic changedProducts (productsCurFlag stg) tM stg tgt
      (fun s hs => productsCurFlag_true_of_distinct stg hd s hs) h2
    exact ⟨hm, i2_insertStep_generic tI stg _ hm⟩

/-- C4 witness: the amended theorem applied to a concrete distinct-key batch
for each entity, starting from an empty target. -/
theorem i2_preserved_for_distinct_key_batches_witness :
    (i2Holds (mergePrices 1 w4Stg []) ∧ i2Holds (pricesPipeline 1 2 w4Stg []))
    ∧ (i2Holds (mergeProducts 1 w4PStg []) ∧ i2Holds (productsPipeline 1 2 w4PStg [])) := by
  constructor
  · exact i2_preserved_for_distinct_key_batches.1 1 2 w4Stg []
      (fun t ht => absurd ht (List.not_mem_nil t))
  · exact i2_preserved_for_distinct_key_batches.2 1 2 w4PStg [] (by decide)
      (fun t ht => absurd ht (List.not_mem_nil t))

/-- C5: the spec round trip says inserting key K as NEW and re-running with a
changed payload yields exactly 2 versions, the old one closed at the second
run timestamp and the new one current.  With run-2 statement timestamps 3
(merge) and 4 (insert), the code closes version 1 at timestamp 3 but the
replacement insert joins on `valid_to = 4` and inserts nothing: the key ends
with exactly one version, closed, and zero current rows. -/
theorem round_trip_yields_single_closed_version :
    c5AfterRun1
      = [{ key := c5Key, payload := { price := 999, quantity := 5 },
           updated_on := 10, valid_from := 1, valid_to := none,
           is_current := true, ingest := 1 }] ∧
    mergeNondet changedPrices c5Stg2 c5AfterRun1 = false ∧
    c5AfterRun2
      = [{ key := c5Key, payload := { price := 999, quantity := 5 },
           updated_on := 10, valid_from := 1, valid_to := some 3,
           is_current := false, ingest := 1 }] ∧
    countCur c5AfterRun2 c5Key = 0 := by
  decide

/-- C6: re-running the merge with an unchanged batch against a target into
which that batch was already merged (every staged row has a matching current
row on which the change predicate is false, and no stored `valid_to` equals
the insert-statement timestamp) completes and leaves the target exactly
unchanged: zero new versions and zero closures, for both entities. -/
theorem idempotent_rerun_unchanged :
    (∀ (tM tI : Nat) (stg : List (StgRow PriceKey PricePayload))
        (tgt : List (TgtRow PriceKey PricePayload)),
        (∀ s ∈ stg, ∃ t ∈ tgt, matchesCur s t = true) →
        (∀ s ∈ stg, ∀ t ∈ tgt, matchesCur s t = true → changedPrices s t = false) →
        freshTo tgt tI →
        runPricesTables tM tI stg tgt = Except.ok tgt)
  ∧ (∀ (tM tI : Nat) (stg : List (StgRow ProductKey ProductPayload))
        (tgt : List (TgtRow ProductKey ProductPayload)),
        (∀ s ∈ stg, ∃ t ∈ tgt, matchesCur s t = true) →
        (∀ s ∈ stg, ∀ t ∈ tgt, matchesCur s t = true → changedProducts s t = false) →
        freshTo tgt tI →
        runProductsTables tM tI stg tgt = Except.ok tgt) :=
  ⟨fun tM tI stg tgt hm hu hf =>
      idempotent_generic changedPrices pricesCurFlag tM tI stg tgt hm hu hf,
   fun tM tI stg tgt hm hu hf =>
      idempotent_generic changedProducts productsCurFlag tM tI stg tgt hm hu hf⟩

/-- C6 witness: the theorem applied to a concrete already-merged batch for
each entity. -/
theorem idempotent_rerun_unchanged_witness :
    runPricesTables 7 8 w6Stg w6Tgt = Except.ok w6Tgt
    ∧ runProductsTables 7 8 w6PStg w6PTgt = Except.ok w6PTgt := by
  constructor
  · exact idempotent_rerun_unchanged.1 7 8 w6Stg w6Tgt (by decide) (by decide) (by decide)
  · exact idempotent_rerun_unchanged.2 7 8 w6PStg w6PTgt (by decide) (by decide) (by decide)

/-- C7 counterexample: the claim says an empty batch still appends exactly one
audit entry with `records_processed = 0` and status SUCCESS.  The code
`if` guard skips `log_audit` entirely on an empty batch: starting from an
empty audit log, zero entries exist after the run, so the appended count is
not one (though the run does raise no error). -/
theorem empty_batch_appends_no_audit_entry_cex :
    (loadPrices Fault.ok false 0 1 2 3 [] emptyState).auditLog.length = 0 ∧
    (loadPrices Fault.ok false 0 1 2 3 [] emptyState).auditLog.length ≠ 1 ∧
    (loadPrices Fault.ok false 0 1 2 3 [] emptyState).outcome = Except.ok () := by
  refine ⟨rfl, ?_, rfl⟩
  decide

/-- C7 (amended): running the load with a batch containing zero rows performs
zero staging writes and zero merge actions, raises no error, and appends zero
audit entries: the audit logger is never invoked (only a warning is logged). -/
theorem empty_batch_no_writes_no_audit :
    (∀ (fault : Fault) (af : Bool) (tS tM tI tE : Nat)
        (st : EtlState PriceKey PricePayload),
        loadPrices fault af tS tM tI tE [] st
          = { staging := st.staging, target := st.target, auditLog := st.auditLog,
              auditCalls := [], outcome := Except.ok () })
  ∧ (∀ (fault : Fault) (af : Bool) (tS tM tI tE : Nat)
        (st : EtlState ProductKey ProductPayload),
        loadProducts fault af tS tM tI tE [] st
          = { staging := st.staging, target := st.target, auditLog := st.auditLog,
              auditCalls := [], outcome := Except.ok () }) :=
  ⟨fun _ _ _ _ _ _ _ => rfl, fun _ _ _ _ _ _ _ => rfl⟩

/-- C8: whenever a load run fails (staging write, merge statement, insert
statement, or the nondeterministic-merge condition), the `except` branch first
invokes the audit logger exactly once with status ERROR, `records_processed =
0` and the captured message, and the error then propagates to the caller (the
outcome is that error). -/
theorem failure_writes_error_audit_and_propagates :
    (∀ (fault : Fault) (af : Bool) (tS tM tI tE : Nat)
        (batch : List (StgRow PriceKey PricePayload))
        (st : EtlState PriceKey PricePayload) (msg : String),
        (loadPrices fault af tS tM tI tE batch st).outcome = Except.error msg →
        (loadPrices fault af tS tM tI tE batch st).auditCalls
          = [errorEntry "prices" tS tE msg])
  ∧ (∀ (fault : Fault) (af : Bool) (tS tM tI tE : Nat)
        (batch : List (StgRow ProductKey ProductPayload))
        (st : EtlState ProductKey ProductPayload) (msg : String),
        (loadProducts fault af tS tM tI tE batch st).outcome = Except.error msg →
        (loadProducts fault af tS tM tI tE batch st).auditCalls
          = [errorEntry "products_v2" tS tE msg]) :=
  ⟨fun fault af tS tM tI tE batch st msg h =>
      loadRun_error_audit changedPrices pricesCurFlag "prices"
        fault af tS tM tI tE batch st msg h,
   fun fault af tS tM tI tE batch st msg h =>
      loadRun_error_audit changedProducts productsCurFlag "products_v2"
        fault af tS tM tI tE batch st msg h⟩

/-- C8 witness: the theorem applied to a concrete failing staging write
(prices) and a concrete failing merge (products). -/
theorem failure_writes_error_audit_witness :
    (loadPrices Fault.atStaging false 0 1 2 3 w8Batch w8State).auditCalls
      = [errorEntry "prices" 0 3 "StagingWriteError"]
    ∧ (loadProducts Fault.atMerge false 0 1 2 3 w8PBatch w8PState).auditCalls
      = [errorEntry "products_v2" 0 3 "MergeError"] := by
  constructor
  · exact failure_writes_error_audit_and_propagates.1 Fault.atStaging false 0 1 2 3
      w8Batch w8State "StagingWriteError" rfl
  · exact failure_writes_error_audit_and_propagates.2 Fault.atMerge false 0 1 2 3
      w8PBatch w8PState "MergeError" rfl

/-- C9: a failure of the audit write is caught inside `log_audit` and never
reaches the caller: for every run, the outcome, the target table, the staging
table and the audit invocations are identical whether or not the audit write
fails; only the persisted audit log differs. -/
theorem audit_failure_never_changes_outcome :
    (∀ (fault : Fault) (tS tM tI tE : Nat)
        (batch : List (StgRow PriceKey PricePayload))
        (st : EtlState PriceKey PricePayload),
        (loadPrices fault true tS tM tI tE batch st).outcome
            = (loadPrices fault false tS tM tI tE batch st).outcome
          ∧ (loadPrices fault true tS tM tI tE batch st).target
            = (loadPrices fault false tS tM tI tE batch st).target
          ∧ (loadPrices fault true tS tM tI tE batch st).staging
            = (loadPrices fault false tS tM tI tE batch st).staging
          ∧ (loadPrices fault true tS tM tI tE batch st).auditCalls
            = (loadPrices fault false tS tM tI tE batch st).auditCalls)
  ∧ (∀ (fault : Fault) (tS tM tI tE : Nat)
        (batch : List (StgRow ProductKey ProductPayload))
        (st : EtlState ProductKey ProductPayload),
        (loadProducts fault true tS tM tI tE batch st).outcome
            = (loadProducts fault false tS tM tI tE batch st).outcome
          ∧ (loadProducts fault true tS tM tI tE batch st).target
            = (loadProducts fault false tS tM tI tE batch st).target
          ∧ (loadProducts fault true tS tM tI tE batch st).staging
            = (loadProducts fault false tS tM tI tE batch st).staging
          ∧ (loadProducts fault true tS tM tI tE batch st).auditCalls
            = (loadProducts fault false tS tM tI tE batch st).auditCalls) :=
  ⟨fun fault tS tM tI tE batch st =>
      loadRun_audit_fault_irrelevant changedPrices pricesCurFlag "prices"
        fault tS tM tI tE batch st,
   fun fault tS tM tI tE batch st =>
      loadRun_audit_fault_irrelevant changedProducts productsCurFlag "products_v2"
        fault tS tM tI tE batch st⟩

/-- C10: for the product entity, when the staging batch contains several rows
for one natural key and the target has no current row for that key, a
completed run inserts every one of those rows (keeping the existing non-current
rows untouched), each with `valid_to` null, `valid_from` equal to the merge
timestamp, and `is_current` true exactly when the `updated_on` of the row equals
the per-key maximum `updated_on` over the staging batch. -/
theorem product_duplicate_new_keys_insert_all
    (tM tI : Nat) (stg : List (StgRow ProductKey ProductPayload))
    (tgt out : List (TgtRow ProductKey ProductPayload)) (k : ProductKey)
    (h1 : ∀ t ∈ tgt, t.key = k → t.is_current = false)
    (h2 : ∀ t ∈ tgt, t.key = k → t.valid_to ≠ some tI)
    (hrun : runProductsTables tM tI stg tgt = Except.ok out) :
    out.filter (fun t => decide (t.key = k))
      = tgt.filter (fun t => decide (t.key = k))
        ++ (stg.filter (fun s => decide (s.key = k))).map
            (fun s => newVersion s tM (productsCurFlag stg s))
    ∧ (∀ s ∈ stg, s.key = k →
        (productsCurFlag stg s = true ↔ s.updated_on = maxUpdatedOn stg k)) := by
  constructor
  · obtain rfl := runTables_ok_eq changedProducts productsCurFlag tM tI stg tgt out hrun
    show (insertStep tI stg
        (mergeStep changedProducts (productsCurFlag stg) tM stg tgt)).filter
          (fun t => decide (t.key = k)) = _
    rw [insertStep_filter_key_no_vt tI stg _ k
      (mergeStep_key_no_vt changedProducts (productsCurFlag stg) tM tI stg tgt k h1 h2)]
    exact mergeStep_filter_key_no_current changedProducts (productsCurFlag stg) tM stg tgt k h1
  · intro s hs hsk
    unfold productsCurFlag
    rw [hsk]
    exact decide_eq_true_iff

/-- C10 witness: the theorem applied to a two-row duplicate-key batch against
an empty target. -/
theorem product_duplicate_new_keys_witness :
    ((productsPipeline 5 6 w10Stg []).filter (fun t => decide (t.key = (("MX", "KX") : ProductKey)))
        = ([] : List (TgtRow ProductKey ProductPayload)).filter
            (fun t => decide (t.key = (("MX", "KX") : ProductKey)))
          ++ (w10Stg.filter (fun s => decide (s.key = (("MX", "KX") : ProductKey)))).map
              (fun s => newVersion s 5 (productsCurFlag w10Stg s)))
    ∧ (∀ s ∈ w10Stg, s.key = (("MX", "KX") : ProductKey) →
        (productsCurFlag w10Stg s = true ↔ s.updated_on = maxUpdatedOn w10Stg ("MX", "KX"))) :=
  product_duplicate_new_keys_insert_all 5 6 w10Stg [] (productsPipeline 5 6 w10Stg [])
    ("MX", "KX")
    (fun t ht => absurd ht (List.not_mem_nil t))
    (fun t ht => absurd ht (List.not_mem_nil t))
    rfl
